import Mathlib

/-!
Verification development for the `decisionrules-poc` service (`src/index.ts`).

The service is a thin HTTP façade: it receives a JSON array of "part"
records and forwards them to a remote rules/flow evaluation service, then
reshapes the responses.  We shallowly embed the JavaScript value domain and
the pure data-shaping logic of the source file:

* `JsVal` models the JavaScript values flowing through the handlers
  (JSON values plus the `undefined` and `NaN` computation results);
* `mergeInputWithFlowPayload` / `pairInputsWithResponses` are direct
  translations of the response-merging functions;
* `calcPriceWithRules` is the pure part of the pricing orchestrator, taking
  the three remote rule results as arguments;
* `handleRequest` models the `fetch` handler, with the remote service
  abstracted as a function `String → JsVal → Except RemoteError JsVal`
  (rule id and payload to result); the concurrent `Promise.all` fan-in is
  modelled sequentially in the `Except` monad, which matches its fail-fast,
  no-partial-results semantics.

JavaScript numbers are modelled by exact rationals (`Rat`); none of the
verified properties depend on floating-point rounding.
-/

namespace DRPoc

/-- A JavaScript runtime value as it occurs in the handlers: a JSON value
(null, boolean, number, string, array, object) extended with `undefined`
(the result of reading a missing property) and `nan` (a non-numeric
arithmetic result).  Objects are association lists in key order. -/
inductive JsVal where
  | undefined
  | nan
  | null
  | bool (b : Bool)
  | num (q : Rat)
  | str (s : String)
  | arr (elems : List JsVal)
  | obj (fields : List (String × JsVal))
deriving Inhabited, Repr

/-- First binding of a key in an object's field list (JS objects from JSON
have no duplicate keys; lookup takes the first match). -/
def lookupField : List (String × JsVal) → String → Option JsVal
  | [], _ => none
  | (k, v) :: rest, key => if k = key then some v else lookupField rest key

/-- JS spread-then-override `\x7b...o, key: v\x7d`: an existing binding of
`key` is overwritten in place, otherwise the binding is appended. -/
def setField : List (String × JsVal) → String → JsVal → List (String × JsVal)
  | [], key, v => [(key, v)]
  | (k, w) :: rest, key, v =>
      if k = key then (key, v) :: rest else (k, w) :: setField rest key v

/-- Optional-chaining property read `v?.key`: a present binding on an
object, `undefined` on a missing binding and on every non-object. -/
def getProp : JsVal → String → JsVal
  | .obj fs, key => (lookupField fs key).getD .undefined
  | _, _ => .undefined

/-- The JS nullish test used by `??` (true exactly on `null`/`undefined`). -/
def isNullish : JsVal → Bool
  | .null => true
  | .undefined => true
  | _ => false

/-- JS nullish coalescing `a ?? b`. -/
def coalesce (a b : JsVal) : JsVal :=
  if isNullish a then b else a

/-- Source `isPlainObject`: `typeof value === "object" && value !== null &&
!Array.isArray(value)`. -/
def isPlainObject : JsVal → Bool
  | .obj _ => true
  | _ => false

/-- JS truthiness, as used by `Boolean(x)`. -/
def jsTruthy : JsVal → Bool
  | .undefined => false
  | .nan => false
  | .null => false
  | .bool b => b
  | .num q => decide (q ≠ 0)
  | .str s => decide (s ≠ "")
  | .arr _ => true
  | .obj _ => true

/-- Digit-string value; `none` when empty or containing a non-digit. -/
def digitsVal : List Char → Option Nat
  | [] => none
  | cs =>
      cs.foldl
        (fun acc c =>
          match acc with
          | none => none
          | some n => if c.isDigit then some (n * 10 + (c.toNat - 48)) else none)
        (some 0)

/-- Whitespace as trimmed by JS `Number()` conversion. -/
def isJsSpace (c : Char) : Bool :=
  c = ' ' || c = '\t' || c = '\n' || c = '\r'

/-- Drop leading whitespace characters. -/
def dropSpaces : List Char → List Char
  | [] => []
  | c :: cs => if isJsSpace c then dropSpaces cs else c :: cs

/-- Trim whitespace from both ends. -/
def trimChars (cs : List Char) : List Char :=
  (dropSpaces (dropSpaces cs).reverse).reverse

/-- Split at the first decimal point, when there is one. -/
def splitDot : List Char → List Char × Option (List Char)
  | [] => ([], none)
  | c :: cs =>
      if c = '.' then ([], some cs)
      else
        let rest := splitDot cs
        (c :: rest.1, rest.2)

/-- Unsigned decimal literal (integer part, optional fraction part); a
second decimal point or any non-digit makes it NaN (`none`). -/
def parseUnsigned (cs : List Char) : Option Rat :=
  match splitDot cs with
  | (intPart, none) => (digitsVal intPart).map (fun n => (n : Rat))
  | (intPart, some fracPart) =>
      if intPart = [] ∧ fracPart = [] then none
      else
        match (if intPart = [] then some 0 else digitsVal intPart),
            (if fracPart = [] then some 0 else digitsVal fracPart) with
        | some i, some f => some ((i : Rat) + (f : Rat) / ((10 : Rat) ^ fracPart.length))
        | _, _ => none

/-- JS `Number()` on a string, modelled for whitespace-trimmed, optionally
signed decimal literals (the empty string is 0, anything unparsable is
NaN, i.e. `none`).  Hexadecimal, exponent and `Infinity` forms of the JS
grammar are outside the modelled fragment. -/
def strToNumber (s : String) : Option Rat :=
  match trimChars s.toList with
  | [] => some 0
  | '-' :: rest => (parseUnsigned rest).map Neg.neg
  | '+' :: rest => parseUnsigned rest
  | t => parseUnsigned t

/-- JS `Number()` conversion: `none` is NaN.  Singleton arrays convert
through their string form, modelled for null/undefined, numeric and string
elements; other singleton contents and longer arrays are NaN (the nested
numeric-singleton corner `Number([[2]])` is outside the modelled
fragment). -/
def jsToNumber : JsVal → Option Rat
  | .undefined => none
  | .nan => none
  | .null => some 0
  | .bool b => some (if b then 1 else 0)
  | .num q => some q
  | .str s => strToNumber s
  | .arr [] => some 0
  | .arr [.null] => some 0
  | .arr [.undefined] => some 0
  | .arr [.num q] => some q
  | .arr [.str s] => strToNumber s
  | .arr _ => none
  | .obj _ => none

/-- Source coercion `typeof raw === "number" ? raw : Number(raw) || 0`:
a number is kept as is, anything else is converted with `Number` and a
NaN result falls back to 0. -/
def coerceAmount (raw : JsVal) : Rat :=
  match raw with
  | .num q => q
  | raw => (jsToNumber raw).getD 0

/-- The defensive amount extraction of `calcPriceWithRules`:
`res?.k1 ?? res?.k2 ?? 0`, then `coerceAmount`. -/
def extractAmount (res : JsVal) (k1 k2 : String) : Rat :=
  coerceAmount (coalesce (getProp res k1) (coalesce (getProp res k2) (.num 0)))

/-- JS evaluation of `basePrice + markupAmount - discountAmount` where the
two amounts are genuine numbers.  When `basePrice` is a number this is
exact arithmetic; otherwise JS yields NaN or a string-concatenation
artefact, collapsed here to `nan` (no verified property depends on the
non-numeric branch). -/
def jsAddSub (base : JsVal) (mk dc : Rat) : JsVal :=
  match base with
  | .num b => .num (b + mk - dc)
  | _ => .nan

/-- Pure core of `calcPriceWithRules` (src/index.ts lines 377-415), given
the three remote rule results: extracts `markupAmount`/`markup` and
`discountValue`/`discount` with numeric coercion, reads `isFeasible` as a
boolean, and builds the merged record with `input`, `outputs` and
`summary`. -/
def calcPriceWithRules (part markupRes discountRes manufactRes : JsVal) : JsVal :=
  let markupAmount := extractAmount markupRes "markupAmount" "markup"
  let discountAmount := extractAmount discountRes "discountValue" "discount"
  let finalPrice := jsAddSub (getProp part "basePrice") markupAmount discountAmount
  let manufacturable := jsTruthy (getProp manufactRes "isFeasible")
  .obj
    [("input", part),
     ("outputs",
       .obj
         [("markup", markupRes),
          ("discount", discountRes),
          ("manufacturability", manufactRes)]),
     ("summary",
       .obj
         [("markupAmount", .num markupAmount),
          ("discountAmount", .num discountAmount),
          ("finalPrice", finalPrice),
          ("manufacturable", .bool manufacturable)])]

/-- Source `mergeInputWithFlowPayload` (src/index.ts lines 432-455):
`input ?? null` becomes the effective input (`none` models an
out-of-bounds `parts[index]`, i.e. `undefined`); a one-element array whose
element is a plain object collapses to that object with `input` attached;
any other array maps each element (plain objects get `input` merged in,
everything else is boxed as `\x7binput, value\x7d`); a non-array plain
object gets `input` merged in; any other value is boxed. -/
def mergeInputWithFlowPayload (input : Option JsVal) (payload : JsVal) : JsVal :=
  let effectiveInput := input.getD .null
  match payload with
  | .arr [item] =>
      match item with
      | .obj fs => .obj (setField fs "input" effectiveInput)
      | item => .arr [.obj [("input", effectiveInput), ("value", item)]]
  | .arr items =>
      .arr
        (items.map fun item =>
          match item with
          | .obj fs => .obj (setField fs "input" effectiveInput)
          | item => .obj [("input", effectiveInput), ("value", item)])
  | .obj fs => .obj (setField fs "input" effectiveInput)
  | payload => .obj [("input", effectiveInput), ("value", payload)]

/-- Index-passing translation of `responses.map((payload, index) =>
mergeInputWithFlowPayload(parts[index], payload))`: `i` is the index of
the first element of the remaining response list. -/
def pairAll (parts : List JsVal) : Nat → List JsVal → List JsVal
  | _, [] => []
  | i, r :: rest => mergeInputWithFlowPayload parts[i]? r :: pairAll parts (i + 1) rest

/-- Source `pairInputsWithResponses` (src/index.ts lines 457-465): an array
response is paired element-by-element with the parts by index; any other
response is merged with every part. -/
def pairInputsWithResponses (parts : List JsVal) (responses : JsVal) : JsVal :=
  match responses with
  | .arr rs => .arr (pairAll parts 0 rs)
  | responses => .arr (parts.map fun part => mergeInputWithFlowPayload (some part) responses)

/-- The rule/flow identifiers read from the environment at startup, plus
whether the static HTML file exists (an external filesystem fact). -/
structure Config where
  markupRuleId : String
  discountRuleId : String
  manufactRuleId : String
  pricingFlowId : String
  htmlExists : Bool

/-- A failure of a remote `dr.solve` call.  The handler surfaces
`err?.message ?? "Error"`; `message` is `none` when the thrown value has
no (string) message. -/
structure RemoteError where
  message : Option String
deriving DecidableEq, Repr

/-- The remote decision service, abstracted as a function from rule id and
payload to a result or an error. -/
def SolveFn : Type := String → JsVal → Except RemoteError JsVal

/-- Effectful `calcPriceWithRules`: the three `dr.solve` calls joined by
`Promise.all`, modelled sequentially in `Except` (fail-fast fan-in with no
partial results; when several of the three calls fail the surfaced error
is the first in argument order, a canonical choice for the race JS leaves
unspecified). -/
def calcPriceWithRulesM (cfg : Config) (solve : SolveFn) (part : JsVal) :
    Except RemoteError JsVal := do
  let markupRes ← solve cfg.markupRuleId part
  let discountRes ← solve cfg.discountRuleId part
  let manufactRes ← solve cfg.manufactRuleId part
  pure (calcPriceWithRules part markupRes discountRes manufactRes)

/-- Source `calcPriceViaFlow`: one flow call whose payload wraps the part
as `\x7binput: part\x7d`. -/
def calcPriceViaFlow (cfg : Config) (solve : SolveFn) (part : JsVal) :
    Except RemoteError JsVal :=
  solve cfg.pricingFlowId (.obj [("input", part)])

/-- Source `calcPriceViaFlowBatch`: one flow call whose payload is the
array of wrapped parts. -/
def calcPriceViaFlowBatch (cfg : Config) (solve : SolveFn) (parts : List JsVal) :
    Except RemoteError JsVal :=
  solve cfg.pricingFlowId (.arr (parts.map fun part => .obj [("input", part)]))

/-- Sequential model of `Promise.all(list.map(f))`: the results in input
order when every call succeeds, the first (in input order) error
otherwise, with the other results discarded. -/
def mapAllM {α β ε : Type} (f : α → Except ε β) : List α → Except ε (List β)
  | [] => .ok []
  | a :: rest =>
      match f a with
      | .error e => .error e
      | .ok b =>
          match mapAllM f rest with
          | .error e => .error e
          | .ok bs => .ok (b :: bs)

/-- An incoming HTTP request as the handler observes it: method, pathname,
whether `batch=true` is in the query string, and the result of
`req.json()` (`none` models a JSON parse failure). -/
structure HttpRequest where
  method : String
  path : String
  batchFlag : Bool
  body : Option JsVal

/-- The body of a response the handler can produce. -/
inductive RespBody where
  | empty
  | text (s : String)
  | html
  | json (v : JsVal)

/-- An outgoing HTTP response: status code and body. -/
structure HttpResponse where
  status : Nat
  body : RespBody

/-- The message surfaced on a remote failure: `err?.message ?? "Error"`. -/
def errorBody (e : RemoteError) : String :=
  e.message.getD "Error"

/-- The `fetch` handler of `Bun.serve` (src/index.ts lines 480-545): GET
serves the HTML file at `/` (500 when missing) and 404 elsewhere; non-POST
is 405; a POST body that is not a JSON array is 400 on every path; then
`/rules` runs the pricing orchestrator, `/flow` the flow orchestrator
(batch or per-part) followed by the response merger, any other path is
404; a remote failure is a 500 carrying `errorBody`. -/
def handleRequest (cfg : Config) (solve : SolveFn) (req : HttpRequest) : HttpResponse :=
  if req.method = "GET" then
    if req.path = "/" then
      if cfg.htmlExists then ⟨200, .html⟩ else ⟨500, .text "HTML file not found"⟩
    else if req.path = "/favicon.ico" then ⟨404, .empty⟩
    else ⟨404, .text "Not Found"⟩
  else if req.method ≠ "POST" then ⟨405, .text "Method Not Allowed"⟩
  else
    match req.body with
    | some (.arr parts) =>
        if req.path = "/rules" then
          match mapAllM (calcPriceWithRulesM cfg solve) parts with
          | .ok results => ⟨200, .json (.arr results)⟩
          | .error e => ⟨500, .text (errorBody e)⟩
        else if req.path = "/flow" then
          if req.batchFlag then
            match calcPriceViaFlowBatch cfg solve parts with
            | .ok rawResults => ⟨200, .json (pairInputsWithResponses parts rawResults)⟩
            | .error e => ⟨500, .text (errorBody e)⟩
          else
            match mapAllM (calcPriceViaFlow cfg solve) parts with
            | .ok rawResults => ⟨200, .json (pairInputsWithResponses parts (.arr rawResults))⟩
            | .error e => ⟨500, .text (errorBody e)⟩
        else ⟨404, .text "Not Found"⟩
    | _ => ⟨400, .text "Body must be a JSON array of parts"⟩

/-- A value with no object or array structure (the "scalar" of the spec). -/
def isScalar : JsVal → Bool
  | .arr _ => false
  | .obj _ => false
  | _ => true

/-- Shape tested by the singleton-collapse special case: an array of
length 1 whose element is a plain object. -/
def isSingletonObjArr : JsVal → Bool
  | .arr [x] => isPlainObject x
  | _ => false

/-- Number of merged outputs the response merger produces: the length of
the returned array (1 for a single merged object, which the merger as
composed with the handlers never returns). -/
def mergedCount (parts : List JsVal) (responses : JsVal) : Nat :=
  match pairInputsWithResponses parts responses with
  | .arr out => out.length
  | _ => 1

/-- Every merged entry of a merger result carries `input` equal to `v`
(for an array result, every element does). -/
def allEntriesInput (v : JsVal) : JsVal → Prop
  | .arr xs => ∀ x ∈ xs, getProp x "input" = v
  | w => getProp w "input" = v

theorem lookupField_setField (fs : List (String × JsVal)) (key : String) (v : JsVal) :
    lookupField (setField fs key v) key = some v := by
  induction fs with
  | nil => simp [setField, lookupField]
  | cons kv rest ih =>
      obtain ⟨k, w⟩ := kv
      by_cases h : k = key
      · simp [setField, lookupField, h]
      · simp [setField, lookupField, h, ih]

theorem getProp_setField (fs : List (String × JsVal)) (key : String) (v : JsVal) :
    getProp (.obj (setField fs key v)) key = v := by
  simp [getProp, lookupField_setField]

theorem mergeInputWithFlowPayload_none_input (payload : JsVal) :
    allEntriesInput .null (mergeInputWithFlowPayload none payload) := by
  cases payload with
  | arr items =>
      match items with
      | [] => simp [mergeInputWithFlowPayload, allEntriesInput]
      | [item] =>
          cases item <;>
            simp [mergeInputWithFlowPayload, allEntriesInput, getProp,
              lookupField, lookupField_setField]
      | a :: b :: rest =>
          simp only [mergeInputWithFlowPayload, allEntriesInput]
          intro x hx
          simp only [Option.getD_none, List.mem_map] at hx
          obtain ⟨item, _, rfl⟩ := hx
          cases item <;> simp [getProp, lookupField, lookupField_setField]
  | obj fs => simp [mergeInputWithFlowPayload, allEntriesInput, getProp, lookupField_setField]
  | undefined => simp [mergeInputWithFlowPayload, allEntriesInput, getProp, lookupField]
  | nan => simp [mergeInputWithFlowPayload, allEntriesInput, getProp, lookupField]
  | null => simp [mergeInputWithFlowPayload, allEntriesInput, getProp, lookupField]
  | bool b => simp [mergeInputWithFlowPayload, allEntriesInput, getProp, lookupField]
  | num q => simp [mergeInputWithFlowPayload, allEntriesInput, getProp, lookupField]
  | str s => simp [mergeInputWithFlowPayload, allEntriesInput, getProp, lookupField]

theorem pairAll_length (parts rs : List JsVal) (i : Nat) :
    (pairAll parts i rs).length = rs.length := by
  induction rs generalizing i with
  | nil => simp [pairAll]
  | cons r rest ih => simp [pairAll, ih]

theorem pairAll_getElem? (parts rs : List JsVal) (i j : Nat) :
    (pairAll parts i rs)[j]? =
      (rs[j]?).map (fun r => mergeInputWithFlowPayload parts[i + j]? r) := by
  induction rs generalizing i j with
  | nil => simp [pairAll]
  | cons r rest ih =>
      cases j with
      | zero => simp [pairAll]
      | succ j' =>
          simp only [pairAll, List.getElem?_cons_succ]
          rw [show i + (j' + 1) = i + 1 + j' from by omega]
          exact ih (i + 1) j'

theorem pairAll_eq_zipWith (parts rs : List JsVal) (i : Nat)
    (h : i + rs.length ≤ parts.length) :
    pairAll parts i rs =
      List.zipWith (fun p r => mergeInputWithFlowPayload (some p) r) (parts.drop i) rs := by
  induction rs generalizing i with
  | nil => simp [pairAll]
  | cons r rest ih =>
      have hi : i < parts.length := by simp at h; omega
      rw [pairAll, List.drop_eq_getElem_cons hi, List.zipWith_cons_cons,
        List.getElem?_eq_getElem hi, ih (i + 1) (by simp at h ⊢; omega)]

theorem mapAllM_ok_of_forall {α β ε : Type} (f : α → Except ε β) (g : α → β)
    (l : List α) (h : ∀ a ∈ l, f a = .ok (g a)) :
    mapAllM f l = .ok (l.map g) := by
  induction l with
  | nil => rfl
  | cons a t ih =>
      have ha := h a (by simp)
      have ht := ih (fun x hx => h x (by simp [hx]))
      simp [mapAllM, ha, ht]

theorem mapAllM_error_of_mem {α β ε : Type} (f : α → Except ε β) (l : List α)
    (h : ∃ a ∈ l, ∃ e, f a = .error e) :
    ∃ e, mapAllM f l = .error e ∧ ∃ a ∈ l, f a = .error e := by
  induction l with
  | nil => simp at h
  | cons b t ih =>
      cases hf : f b with
      | error e =>
          exact ⟨e, by simp [mapAllM, hf], b, by simp, hf⟩
      | ok v =>
          obtain ⟨a, ha, e, hae⟩ := h
          have hat : a ∈ t := by
            rcases List.mem_cons.mp ha with rfl | hat
            · rw [hf] at hae; cases hae
            · exact hat
          obtain ⟨e', ht, a', ha', hae'⟩ := ih ⟨a, hat, e, hae⟩
          exact ⟨e', by simp [mapAllM, hf, ht], a', by simp [ha'], hae'⟩

/-- The spec's well-formed Part: a record with numeric `basePrice` and
`quantity`, string `method`, `material` and `customerTier` (extra fields
allowed).  The handler theorems assume it because the source's plain
`part.basePrice` access would throw on a `null` or `undefined` part,
a branch outside this total model. -/
def wellFormedPart (v : JsVal) : Bool :=
  match v with
  | .obj fs =>
      (match lookupField fs "basePrice" with | some (.num _) => true | _ => false)
      && (match lookupField fs "method" with | some (.str _) => true | _ => false)
      && (match lookupField fs "material" with | some (.str _) => true | _ => false)
      && (match lookupField fs "quantity" with | some (.num _) => true | _ => false)
      && (match lookupField fs "customerTier" with | some (.str _) => true | _ => false)
  | _ => false

theorem coerceAmount_of_nan (raw : JsVal) (h : jsToNumber raw = none) :
    coerceAmount raw = 0 := by
  cases raw <;> simp_all [coerceAmount, jsToNumber]

/-- C3: when the response merger receives a raw response that is an array
with exactly one element which is a plain key/value record, it returns
the single merged object (the record with `input` attached) and not a
one-element list, independently of how many parts there are. -/
theorem C3_singleton_collapse (input : Option JsVal) (fs : List (String × JsVal)) :
    mergeInputWithFlowPayload input (.arr [.obj fs])
      = .obj (setField fs "input" (input.getD .null))
    ∧ isPlainObject (.obj fs) = true
    ∧ ∀ l, mergeInputWithFlowPayload input (.arr [.obj fs]) ≠ .arr l := by
  refine ⟨rfl, rfl, fun l h => ?_⟩
  exact JsVal.noConfusion h

/-- C3 witness at a concrete input and record. -/
theorem C3_singleton_collapse_witness :
    mergeInputWithFlowPayload (some (.num 7)) (.arr [.obj [("a", .num 1)]])
      = .obj (setField [("a", JsVal.num 1)] "input" ((some (JsVal.num 7)).getD .null)) :=
  (C3_singleton_collapse (some (.num 7)) [("a", .num 1)]).1

/-- C4: a raw batch-flow response array of length N paired with N parts,
N > 1, is paired positionally (element i with input i, exactly zipWith),
the singleton collapse does not apply to the response array, and each
plain-record element is merged with its input while each scalar element
is boxed as an input/value record. -/
theorem C4_positional_pairing (parts rs : List JsVal)
    (hlen : rs.length = parts.length) (hN : 1 < parts.length) :
    pairInputsWithResponses parts (.arr rs)
      = .arr (List.zipWith (fun p r => mergeInputWithFlowPayload (some p) r) parts rs)
    ∧ (List.zipWith (fun p r => mergeInputWithFlowPayload (some p) r) parts rs).length
        = parts.length
    ∧ isSingletonObjArr (.arr rs) = false
    ∧ (∀ p fs, mergeInputWithFlowPayload (some p) (.obj fs)
        = .obj (setField fs "input" p))
    ∧ (∀ p v, isScalar v = true → mergeInputWithFlowPayload (some p) v
        = .obj [("input", p), ("value", v)]) := by
  refine ⟨?_, ?_, ?_, fun p fs => rfl, fun p v hv => ?_⟩
  · show JsVal.arr (pairAll parts 0 rs) = _
    rw [pairAll_eq_zipWith parts rs 0 (by omega), List.drop_zero]
  · rw [List.length_zipWith, hlen, Nat.min_self]
  · match rs, hlen with
    | [], h => simp at h; omega
    | [x], h => simp at h; omega
    | a :: b :: t, _ => rfl
  · cases v <;> simp [isScalar] at hv ⊢ <;> rfl

/-- C4 witness: two parts, two response elements (one record, one scalar). -/
theorem C4_positional_pairing_witness :
    pairInputsWithResponses [JsVal.obj [], JsVal.null]
        (.arr [.obj [("x", .num 1)], .str "y"])
      = .arr (List.zipWith (fun p r => mergeInputWithFlowPayload (some p) r)
          [JsVal.obj [], JsVal.null] [.obj [("x", .num 1)], .str "y"]) :=
  (C4_positional_pairing [JsVal.obj [], JsVal.null] [.obj [("x", .num 1)], .str "y"]
    rfl (by decide)).1

/-- C2 counterexample: with one input part and a two-element raw response
array (no singleton collapse involved), the merger returns two merged
outputs, not one — so the merged-output count does not always equal the
input count outside the singleton special case. -/
theorem C2_count_counterexample :
    mergedCount [JsVal.obj []] (.arr [.num 1, .num 2]) = 2
    ∧ ([JsVal.obj []] : List JsVal).length = 1
    ∧ isSingletonObjArr (.arr [.num 1, .num 2]) = false := by
  exact ⟨rfl, rfl, rfl⟩

/-- C2 (amended): for every batch flow call, the number of merged outputs
equals the number of raw response elements when the raw response is an
array, and the number of input parts otherwise; so the input and output
counts match exactly when the raw response is a non-array or an array of
matching length, and the singleton collapse never changes the batch-level
count. -/
theorem C2_merged_count_characterization (parts : List JsVal) (responses : JsVal) :
    (∀ rs, responses = .arr rs → mergedCount parts responses = rs.length)
    ∧ ((∀ rs, responses ≠ .arr rs) → mergedCount parts responses = parts.length) := by
  constructor
  · rintro rs rfl
    simp [mergedCount, pairInputsWithResponses, pairAll_length]
  · intro h
    cases responses with
    | arr rs => exact absurd rfl (h rs)
    | undefined => simp [mergedCount, pairInputsWithResponses]
    | nan => simp [mergedCount, pairInputsWithResponses]
    | null => simp [mergedCount, pairInputsWithResponses]
    | bool b => simp [mergedCount, pairInputsWithResponses]
    | num q => simp [mergedCount, pairInputsWithResponses]
    | str s => simp [mergedCount, pairInputsWithResponses]
    | obj fs => simp [mergedCount, pairInputsWithResponses]

/-- C2 witness: a non-array (object) batch response yields one merged
output per input part. -/
theorem C2_merged_count_witness :
    mergedCount [JsVal.obj []] (.obj [("t", .num 1)]) = 1 :=
  (C2_merged_count_characterization [JsVal.obj []] (.obj [("t", .num 1)])).2
    (fun _ h => JsVal.noConfusion h)

/-- C9: merging a single part with its raw flow response always records
that exact part under the `input` key when the raw response is a plain
object, a one-element array containing a plain object, or a scalar; and
the single-part pairing produces exactly one merged output with that
property. -/
theorem C9_single_flow_roundtrip (part raw : JsVal)
    (h : isPlainObject raw = true ∨ (∃ fs, raw = .arr [.obj fs]) ∨ isScalar raw = true) :
    getProp (mergeInputWithFlowPayload (some part) raw) "input" = part
    ∧ ∃ out0, pairInputsWithResponses [part] (.arr [raw]) = .arr [out0]
        ∧ getProp out0 "input" = part := by
  have hmain : getProp (mergeInputWithFlowPayload (some part) raw) "input" = part := by
    rcases h with h | ⟨fs, rfl⟩ | h
    · cases raw <;> simp [isPlainObject] at h
      case obj fs => simp [mergeInputWithFlowPayload, getProp, lookupField_setField]
    · simp [mergeInputWithFlowPayload, getProp, lookupField_setField]
    · cases raw <;> simp [isScalar] at h <;>
        simp [mergeInputWithFlowPayload, getProp, lookupField]
  exact ⟨hmain, mergeInputWithFlowPayload (some part) raw, rfl, hmain⟩

/-- C9 witness: a scalar raw response for one part. -/
theorem C9_single_flow_roundtrip_witness :
    getProp (mergeInputWithFlowPayload (some (.obj [("q", .num 1)])) (.num 5)) "input"
      = .obj [("q", .num 1)] :=
  (C9_single_flow_roundtrip (.obj [("q", .num 1)]) (.num 5) (Or.inr (Or.inr rfl))).1

/-- C10: when a raw batch response array is longer than the parts list the
merger is still total: the output has one entry per response element, and
every entry beyond the last input index is merged with a `null` input
(every merged record carries `input = null`, never `undefined`). -/
theorem C10_overlong_response_total (parts rs : List JsVal)
    (_hgt : parts.length < rs.length) :
    ∃ out : List JsVal,
      pairInputsWithResponses parts (.arr rs) = .arr out
      ∧ out.length = rs.length
      ∧ (∀ i, parts.length ≤ i →
          out[i]? = (rs[i]?).map (fun r => mergeInputWithFlowPayload none r))
      ∧ (∀ r, allEntriesInput .null (mergeInputWithFlowPayload none r)) := by
  refine ⟨pairAll parts 0 rs, rfl, pairAll_length parts rs 0, ?_,
    fun r => mergeInputWithFlowPayload_none_input r⟩
  intro i hi
  rw [pairAll_getElem? parts rs 0 i]
  rw [show (0 : Nat) + i = i from by omega]
  rw [List.getElem?_eq_none hi]

/-- C10 witness: zero parts against a one-element response array. -/
theorem C10_overlong_response_witness :
    ∃ out : List JsVal,
      pairInputsWithResponses [] (.arr [.num 1]) = .arr out
      ∧ out.length = ([JsVal.num 1] : List JsVal).length
      ∧ (∀ i, ([] : List JsVal).length ≤ i →
          out[i]? = ((([JsVal.num 1] : List JsVal))[i]?).map
            (fun r => mergeInputWithFlowPayload none r))
      ∧ (∀ r, allEntriesInput .null (mergeInputWithFlowPayload none r)) :=
  C10_overlong_response_total [] [.num 1] (by decide)

/-- C1: for a part with numeric `basePrice`, the summary's `finalPrice`
is exactly `basePrice + markupAmount - discountAmount`, where the two
amounts are read defensively from the rule results (`markupAmount` then
`markup`; `discountValue` then `discount`), coerced to numbers, and an
amount whose fields are both missing (nullish), or whose selected value
is non-numeric (NaN after conversion), contributes 0. -/
theorem C1_final_price_formula (part markupRes discountRes manufactRes : JsVal)
    (b : Rat) (hb : getProp part "basePrice" = .num b) :
    getProp (getProp (calcPriceWithRules part markupRes discountRes manufactRes) "summary")
        "finalPrice"
      = .num (b + extractAmount markupRes "markupAmount" "markup"
          - extractAmount discountRes "discountValue" "discount")
    ∧ (∀ res k1 k2, isNullish (getProp res k1) = true → isNullish (getProp res k2) = true →
        extractAmount res k1 k2 = 0)
    ∧ (∀ res k1 k2,
        jsToNumber (coalesce (getProp res k1) (coalesce (getProp res k2) (.num 0))) = none →
        extractAmount res k1 k2 = 0) := by
  refine ⟨?_, ?_, fun res k1 k2 h => coerceAmount_of_nan _ h⟩
  · have base :
        getProp (getProp (calcPriceWithRules part markupRes discountRes manufactRes)
            "summary") "finalPrice"
          = jsAddSub (getProp part "basePrice")
              (extractAmount markupRes "markupAmount" "markup")
              (extractAmount discountRes "discountValue" "discount") := rfl
    rw [base, hb]
    rfl
  · intro res k1 k2 h1 h2
    simp [extractAmount, coalesce, h1, h2, coerceAmount, jsToNumber]

/-- C1 witness: base price 100, markup 10, discount 5. -/
theorem C1_final_price_formula_witness :
    getProp (getProp (calcPriceWithRules (.obj [("basePrice", .num 100)])
        (.obj [("markupAmount", .num 10)]) (.obj [("discountValue", .num 5)])
        (.obj [("isFeasible", .bool true)])) "summary") "finalPrice"
      = .num (100 + extractAmount (.obj [("markupAmount", .num 10)]) "markupAmount" "markup"
          - extractAmount (.obj [("discountValue", .num 5)]) "discountValue" "discount") :=
  (C1_final_price_formula (.obj [("basePrice", .num 100)]) (.obj [("markupAmount", .num 10)])
    (.obj [("discountValue", .num 5)]) (.obj [("isFeasible", .bool true)]) 100 rfl).1

/-- C8: the summary's `manufacturable` field is the truthiness of the
manufacturability result's `isFeasible` field; an absent (`undefined`)
or falsy field gives `false`. -/
theorem C8_manufacturable_truthiness (part markupRes discountRes manufactRes : JsVal)
    (_hwf : wellFormedPart part = true) :
    getProp (getProp (calcPriceWithRules part markupRes discountRes manufactRes) "summary")
        "manufacturable"
      = .bool (jsTruthy (getProp manufactRes "isFeasible"))
    ∧ (getProp manufactRes "isFeasible" = .undefined →
        getProp (getProp (calcPriceWithRules part markupRes discountRes manufactRes)
            "summary") "manufacturable" = .bool false)
    ∧ (jsTruthy (getProp manufactRes "isFeasible") = false →
        getProp (getProp (calcPriceWithRules part markupRes discountRes manufactRes)
            "summary") "manufacturable" = .bool false) := by
  have base :
      getProp (getProp (calcPriceWithRules part markupRes discountRes manufactRes)
          "summary") "manufacturable"
        = .bool (jsTruthy (getProp manufactRes "isFeasible")) := rfl
  refine ⟨base, fun h => ?_, fun h => ?_⟩
  · rw [base, h]; rfl
  · rw [base, h]

/-- A concrete well-formed part (the spec's worked example). -/
def wPart : JsVal :=
  .obj [("basePrice", .num 100), ("method", .str "CNC"), ("material", .str "Aluminum"),
        ("quantity", .num 50), ("customerTier", .str "Gold")]

/-- C8 witness: feasible result present and true. -/
theorem C8_manufacturable_truthiness_witness :
    getProp (getProp (calcPriceWithRules wPart (.obj []) (.obj [])
        (.obj [("isFeasible", .bool true)])) "summary") "manufacturable"
      = .bool (jsTruthy (getProp (.obj [("isFeasible", .bool true)]) "isFeasible")) :=
  (C8_manufacturable_truthiness wPart (.obj []) (.obj [])
    (.obj [("isFeasible", .bool true)]) rfl).1

theorem calcPriceWithRulesM_eq (cfg : Config) (solve : SolveFn) (part : JsVal) :
    calcPriceWithRulesM cfg solve part =
      match solve cfg.markupRuleId part with
      | .error e => .error e
      | .ok m =>
          match solve cfg.discountRuleId part with
          | .error e => .error e
          | .ok d =>
              match solve cfg.manufactRuleId part with
              | .error e => .error e
              | .ok f => .ok (calcPriceWithRules part m d f) := by
  unfold calcPriceWithRulesM
  cases solve cfg.markupRuleId part with
  | error e => rfl
  | ok m =>
      cases solve cfg.discountRuleId part with
      | error e => rfl
      | ok d =>
          cases solve cfg.manufactRuleId part with
          | error e => rfl
          | ok f => rfl

/-- C5: when all three rule calls succeed for every part, the `/rules`
response is a 200 whose JSON body is exactly the in-order map of
`calcPriceWithRules` over the parts — same length, element i derived from
part i — and each element carries the original input, the three raw rule
outputs, and the computed summary. -/
theorem C5_rules_order_and_shape (cfg : Config) (solve : SolveFn)
    (parts : List JsVal) (bq : Bool) (mres dres fres : JsVal → JsVal)
    (_hwf : ∀ p ∈ parts, wellFormedPart p = true)
    (hok : ∀ p ∈ parts,
      solve cfg.markupRuleId p = .ok (mres p) ∧
      solve cfg.discountRuleId p = .ok (dres p) ∧
      solve cfg.manufactRuleId p = .ok (fres p)) :
    handleRequest cfg solve ⟨"POST", "/rules", bq, some (.arr parts)⟩
      = ⟨200, .json (.arr (parts.map fun p => calcPriceWithRules p (mres p) (dres p) (fres p)))⟩
    ∧ (parts.map fun p => calcPriceWithRules p (mres p) (dres p) (fres p)).length
        = parts.length
    ∧ (∀ p,
        getProp (calcPriceWithRules p (mres p) (dres p) (fres p)) "input" = p
        ∧ getProp (calcPriceWithRules p (mres p) (dres p) (fres p)) "outputs"
            = .obj [("markup", mres p), ("discount", dres p), ("manufacturability", fres p)]
        ∧ getProp (calcPriceWithRules p (mres p) (dres p) (fres p)) "summary"
            = .obj
                [("markupAmount", .num (extractAmount (mres p) "markupAmount" "markup")),
                 ("discountAmount", .num (extractAmount (dres p) "discountValue" "discount")),
                 ("finalPrice", jsAddSub (getProp p "basePrice")
                     (extractAmount (mres p) "markupAmount" "markup")
                     (extractAmount (dres p) "discountValue" "discount")),
                 ("manufacturable", .bool (jsTruthy (getProp (fres p) "isFeasible")))]) := by
  have hcalc : ∀ p ∈ parts,
      calcPriceWithRulesM cfg solve p
        = .ok (calcPriceWithRules p (mres p) (dres p) (fres p)) := by
    intro p hp
    obtain ⟨h1, h2, h3⟩ := hok p hp
    rw [calcPriceWithRulesM_eq, h1, h2, h3]
  have hmap := mapAllM_ok_of_forall (calcPriceWithRulesM cfg solve)
    (fun p => calcPriceWithRules p (mres p) (dres p) (fres p)) parts hcalc
  refine ⟨?_, by simp, fun p => ⟨rfl, rfl, rfl⟩⟩
  simp [handleRequest, hmap]

/-- Shared witness fixtures: a concrete configuration and remote stubs. -/
def wCfg : Config :=
  ⟨"markup-rule", "discount-rule", "manufact-rule", "pricing-flow", true⟩

/-- Remote stub that always succeeds with an empty object. -/
def wSolveOk : SolveFn := fun _ _ => .ok (.obj [])

/-- Remote stub that always fails with message "boom". -/
def wSolveErr : SolveFn := fun _ _ => .error ⟨some "boom"⟩

/-- C5 witness: one well-formed part, all calls succeeding. -/
theorem C5_rules_order_and_shape_witness :
    handleRequest wCfg wSolveOk ⟨"POST", "/rules", false, some (.arr [wPart])⟩
      = ⟨200, .json (.arr (([wPart] : List JsVal).map
          fun p => calcPriceWithRules p (.obj []) (.obj []) (.obj [])))⟩ :=
  (C5_rules_order_and_shape wCfg wSolveOk [wPart] false
    (fun _ => .obj []) (fun _ => .obj []) (fun _ => .obj [])
    (by intro p hp; simp at hp; subst hp; rfl)
    (fun _ _ => ⟨rfl, rfl, rfl⟩)).1

/-- C6: if any of the three rule calls fails for any part, the `/rules`
request responds 500 with body equal to a failing call's error message
(or "Error" when the error has none), and the body is not a JSON result
list — no partial pricing results are returned. -/
theorem C6_rules_failure_aborts (cfg : Config) (solve : SolveFn)
    (parts : List JsVal) (bq : Bool)
    (_hwf : ∀ p ∈ parts, wellFormedPart p = true)
    (hfail : ∃ p ∈ parts, ∃ e : RemoteError,
        solve cfg.markupRuleId p = .error e ∨
        solve cfg.discountRuleId p = .error e ∨
        solve cfg.manufactRuleId p = .error e) :
    ∃ e : RemoteError,
      (∃ p ∈ parts,
        solve cfg.markupRuleId p = .error e ∨
        solve cfg.discountRuleId p = .error e ∨
        solve cfg.manufactRuleId p = .error e)
      ∧ handleRequest cfg solve ⟨"POST", "/rules", bq, some (.arr parts)⟩
          = ⟨500, .text (errorBody e)⟩
      ∧ errorBody e = e.message.getD "Error"
      ∧ ∀ v, (RespBody.text (errorBody e)) ≠ .json v := by
  have hstep : ∀ p, (∃ e : RemoteError,
      solve cfg.markupRuleId p = .error e ∨
      solve cfg.discountRuleId p = .error e ∨
      solve cfg.manufactRuleId p = .error e) →
      ∃ e, calcPriceWithRulesM cfg solve p = .error e := by
    intro p hp
    cases h1 : solve cfg.markupRuleId p with
    | error e => exact ⟨e, by rw [calcPriceWithRulesM_eq, h1]⟩
    | ok m =>
        cases h2 : solve cfg.discountRuleId p with
        | error e => exact ⟨e, by rw [calcPriceWithRulesM_eq, h1, h2]⟩
        | ok d =>
            cases h3 : solve cfg.manufactRuleId p with
            | error e => exact ⟨e, by rw [calcPriceWithRulesM_eq, h1, h2, h3]⟩
            | ok f =>
                obtain ⟨e, he⟩ := hp
                rcases he with h | h | h
                · rw [h1] at h; cases h
                · rw [h2] at h; cases h
                · rw [h3] at h; cases h
  have hback : ∀ p e, calcPriceWithRulesM cfg solve p = .error e →
      solve cfg.markupRuleId p = .error e ∨
      solve cfg.discountRuleId p = .error e ∨
      solve cfg.manufactRuleId p = .error e := by
    intro p e h
    rw [calcPriceWithRulesM_eq] at h
    cases h1 : solve cfg.markupRuleId p with
    | error e1 =>
        rw [h1] at h
        have h' : Except.error (α := JsVal) e1 = Except.error e := h
        injection h' with hh
        subst hh
        exact Or.inl rfl
    | ok m =>
        rw [h1] at h
        cases h2 : solve cfg.discountRuleId p with
        | error e2 =>
            rw [h2] at h
            have h' : Except.error (α := JsVal) e2 = Except.error e := h
            injection h' with hh
            subst hh
            exact Or.inr (Or.inl rfl)
        | ok d =>
            rw [h2] at h
            cases h3 : solve cfg.manufactRuleId p with
            | error e3 =>
                rw [h3] at h
                have h' : Except.error (α := JsVal) e3 = Except.error e := h
                injection h' with hh
                subst hh
                exact Or.inr (Or.inr rfl)
            | ok f =>
                rw [h3] at h
                have h' : Except.ok (ε := RemoteError) (calcPriceWithRules p m d f)
                    = Except.error e := h
                exact Except.noConfusion h'
  obtain ⟨p, hp, hpe⟩ := hfail
  obtain ⟨e0, he0⟩ := hstep p hpe
  obtain ⟨e, hmap, a, hat, hae⟩ :=
    mapAllM_error_of_mem (calcPriceWithRulesM cfg solve) parts ⟨p, hp, e0, he0⟩
  refine ⟨e, ⟨a, hat, hback a e hae⟩, ?_, rfl, fun v h => RespBody.noConfusion h⟩
  simp [handleRequest, hmap]

/-- C6 witness: a single part whose markup call fails with message "boom". -/
theorem C6_rules_failure_aborts_witness :
    ∃ e : RemoteError,
      (∃ p ∈ ([wPart] : List JsVal),
        wSolveErr wCfg.markupRuleId p = .error e ∨
        wSolveErr wCfg.discountRuleId p = .error e ∨
        wSolveErr wCfg.manufactRuleId p = .error e)
      ∧ handleRequest wCfg wSolveErr ⟨"POST", "/rules", false, some (.arr [wPart])⟩
          = ⟨500, .text (errorBody e)⟩
      ∧ errorBody e = e.message.getD "Error"
      ∧ ∀ v, (RespBody.text (errorBody e)) ≠ .json v :=
  C6_rules_failure_aborts wCfg wSolveErr [wPart] false
    (by intro p hp; simp at hp; subst hp; rfl)
    ⟨wPart, by simp, ⟨some "boom"⟩, Or.inl rfl⟩

/-- C7: a POST whose body fails to parse as JSON or parses to a non-array
gets a 400 with the fixed descriptive message, on every path, and the
response does not depend on the remote service (no remote call can
influence it). -/
theorem C7_malformed_body_400 (cfg : Config) (s1 s2 : SolveFn) (req : HttpRequest)
    (hm : req.method = "POST")
    (hb : req.body = none ∨ ∃ v, req.body = some v ∧ ∀ l, v ≠ .arr l) :
    handleRequest cfg s1 req = ⟨400, .text "Body must be a JSON array of parts"⟩
    ∧ handleRequest cfg s1 req = handleRequest cfg s2 req := by
  obtain ⟨m, p, bq, body⟩ := req
  simp only at hm
  subst hm
  have h400 : ∀ s : SolveFn,
      handleRequest cfg s ⟨"POST", p, bq, body⟩
        = ⟨400, .text "Body must be a JSON array of parts"⟩ := by
    intro s
    rcases hb with hb | ⟨v, hv, hnotarr⟩
    · simp only at hb
      subst hb
      simp [handleRequest]
    · simp only at hv
      subst hv
      cases v <;> first
        | exact absurd rfl (hnotarr _)
        | simp [handleRequest]
  exact ⟨h400 s1, (h400 s1).trans (h400 s2).symm⟩

/-- C7 witness: a POST with an unparsable body on an arbitrary path. -/
theorem C7_malformed_body_400_witness :
    handleRequest wCfg wSolveOk ⟨"POST", "/nowhere", false, none⟩
      = ⟨400, .text "Body must be a JSON array of parts"⟩ :=
  (C7_malformed_body_400 wCfg wSolveOk wSolveErr ⟨"POST", "/nowhere", false, none⟩
    rfl (Or.inl rfl)).1

end DRPoc
